import Mathlib

/-!
Shallow embedding of `src/bibtexparser/library.py` (the `Library` container of
python-bibtexparser) together with the parts of its data model that the
library file uses. Python's in-place mutation becomes explicit state passing:
every
operation takes a `Library` and returns either the new `Library` or the raised
exception paired with the library state at the moment the exception left the
method (Python mutations performed before the raise are visible afterwards).
-/

namespace Bibtex

/-- Modelled from the spec: the closed set of block variants of
`bibtexparser.model` (spec section 3); `model.py` is not under `src/`.
Every block carries provenance (`startLine`, `raw`); the keyed variants
carry a `key`. The `id` field stands in for Python object identity
(spec section 9: removal matches by object identity, so two blocks of equal
content are still distinct objects; a fresh `id` realises that handle).
`duplicateKey` is the `DuplicateKeyBlock` sentinel wrapping the previous
block and the duplicating block; it is its own variant, not an `Entry` or
`String` (spec section 3: a closed tagged-variant type). -/
inductive Block : Type where
  | entry (id startLine : Nat) (raw key : String)
  | string (id startLine : Nat) (raw key : String)
  | preamble (id startLine : Nat) (raw : String)
  | explicitComment (id startLine : Nat) (raw : String)
  | implicitComment (id startLine : Nat) (raw : String)
  | parsingFailed (id startLine : Nat) (raw : String)
  | duplicateKey (startLine : Nat) (raw key : String) (previous duplicate : Block)
deriving DecidableEq, Repr

/-- Provenance accessor: the `start_line` attribute common to all variants. -/
def Block.startLineOf : Block → Nat
  | .entry _ s _ _ => s
  | .string _ s _ _ => s
  | .preamble _ s _ => s
  | .explicitComment _ s _ => s
  | .implicitComment _ s _ => s
  | .parsingFailed _ s _ => s
  | .duplicateKey s _ _ _ _ => s

/-- Provenance accessor: the `raw` attribute common to all variants. -/
def Block.rawOf : Block → String
  | .entry _ _ r _ => r
  | .string _ _ r _ => r
  | .preamble _ _ r => r
  | .explicitComment _ _ r => r
  | .implicitComment _ _ r => r
  | .parsingFailed _ _ r => r
  | .duplicateKey _ r _ _ _ => r

/-- The `key` attribute of the keyed variants (`Entry`, `String`,
`DuplicateKeyBlock`); the unkeyed variants have no such attribute and the
code never reads it on them, so the default is irrelevant. -/
def Block.keyD : Block → String
  | .entry _ _ _ k => k
  | .string _ _ _ k => k
  | .duplicateKey _ _ k _ _ => k
  | _ => ""

/-- Python `isinstance(b, Entry)`. -/
def Block.isEntry : Block → Bool
  | .entry _ _ _ _ => true
  | _ => false

/-- Python `isinstance(b, String)`. -/
def Block.isString : Block → Bool
  | .string _ _ _ _ => true
  | _ => false

/-- Python `isinstance(b, DuplicateKeyBlock)`. -/
def Block.isDuplicateKey : Block → Bool
  | .duplicateKey _ _ _ _ _ => true
  | _ => false

/-- Discriminant of the concrete variant (the Python class of the object). -/
def Block.tag : Block → Nat
  | .entry .. => 0
  | .string .. => 1
  | .preamble .. => 2
  | .explicitComment .. => 3
  | .implicitComment .. => 4
  | .parsingFailed .. => 5
  | .duplicateKey .. => 6

/-- Python `isinstance(a, type(b)) or isinstance(b, type(a))` on the closed flat
variant set: the two blocks are of the same concrete variant. -/
def sameVariant (a b : Block) : Bool := a.tag == b.tag

/-- Association-list model of a Python `dict` from keys to blocks; in every
state the `Library` code can reach, the keys of the list are distinct. -/
abbrev KeyMap := List (String × Block)

/-- Dict lookup `d[k]` / `k in d`: the value of the first binding of `k`. -/
def mapGet : KeyMap → String → Option Block
  | [], _ => none
  | (k1, v) :: rest, k => if k1 = k then some v else mapGet rest k

/-- Dict store `d[k] = v`: replace the binding of `k` in place (Python dicts keep the
original insertion position on update), else append a new binding. -/
def mapSet : KeyMap → String → Block → KeyMap
  | [], k, v => [(k, v)]
  | (k1, v1) :: rest, k, v =>
    if k1 = k then (k, v) :: rest else (k1, v1) :: mapSet rest k v

/-- Dict deletion `del d[k]`: drop the bindings of `k` (dict keys are unique, so dropping
every binding coincides with dropping the one binding). -/
def mapDel : KeyMap → String → KeyMap
  | [], _ => []
  | (k1, v1) :: rest, k =>
    if k1 = k then mapDel rest k else (k1, v1) :: mapDel rest k

/-- Error outcomes of `library.py`: `notFound` and `duplicateKeyFound` are its
two `ValueError`s, `keyError` is a `KeyError` escaping a `del`, and
`assertionError` a failed `assert` in `_cast_to_duplicate`. -/
inductive PyError : Type where
  | notFound
  | keyError
  | assertionError
  | duplicateKeyFound
deriving DecidableEq, Repr

/-- Result of a Python method on a library: the value on normal return, or
the exception together with the library state left behind by the raise. -/
inductive PyResult (α : Type) : Type where
  | ok (value : α)
  | error (e : PyError) (lib : α)
deriving DecidableEq, Repr

/-- The `Library` of `library.py`: the ordered block sequence and the two
key-indexed dicts. -/
structure Library : Type where
  _blocks : List Block
  _entries_by_key : KeyMap
  _strings_by_key : KeyMap
deriving DecidableEq, Repr

/-- Constructor `Library.__init__` (library.py lines 18-21): copies the given block list
and sets BOTH key maps to fresh empty dicts; it does not register the blocks
in the maps. -/
def Library.init (blocks : List Block) : Library :=
  { _blocks := blocks, _entries_by_key := [], _strings_by_key := [] }

/-- Constructor call `Library()` with no argument. -/
def emptyLibrary : Library := Library.init []

/-- The `blocks` property (library.py lines 137-139): a copy of the ordered
sequence; copying is the identity in a functional model. -/
def Library.blocks (lib : Library) : List Block := lib._blocks

/-- The `entries_dict` property (library.py lines 157-159). -/
def Library.entries_dict (lib : Library) : KeyMap := lib._entries_by_key

/-- The `strings_dict` property (library.py lines 149-151). -/
def Library.strings_dict (lib : Library) : KeyMap := lib._strings_by_key

/-- Method `Library._cast_to_duplicate` (library.py lines 86-109). The two `assert`
statements become `assertionError` results; on success the returned
`DuplicateKeyBlock` takes `start_line`, `raw` and `key` from the duplicate
and wraps both blocks. -/
def castToDuplicate (prev dup : Block) : Except PyError Block :=
  if sameVariant prev dup then
    if prev.keyD = dup.keyD then
      Except.ok (Block.duplicateKey dup.startLineOf dup.rawOf dup.keyD prev dup)
    else
      Except.error PyError.assertionError
  else
    Except.error PyError.assertionError

/-- Method `Library._add_to_dicts` (library.py lines 111-135). The
`try/except KeyError/finally` is unfolded: on a fresh key the block itself is
stored in the slot; on an occupied slot the cast result is stored; if the
cast raises, the `finally` still stores the ORIGINAL block in the slot before
the exception propagates, so the error case carries that mutated state. -/
def addToDicts (lib : Library) (block : Block) : PyResult (Library × Block) :=
  match block with
  | Block.entry i s r k =>
    match mapGet lib._entries_by_key k with
    | none =>
      PyResult.ok
        ({ lib with _entries_by_key := mapSet lib._entries_by_key k (Block.entry i s r k) },
          Block.entry i s r k)
    | some prev =>
      match castToDuplicate prev (Block.entry i s r k) with
      | Except.ok dupb =>
        PyResult.ok ({ lib with _entries_by_key := mapSet lib._entries_by_key k dupb }, dupb)
      | Except.error e =>
        PyResult.error e
          ({ lib with _entries_by_key := mapSet lib._entries_by_key k (Block.entry i s r k) },
            Block.entry i s r k)
  | Block.string i s r k =>
    match mapGet lib._strings_by_key k with
    | none =>
      PyResult.ok
        ({ lib with _strings_by_key := mapSet lib._strings_by_key k (Block.string i s r k) },
          Block.string i s r k)
    | some prev =>
      match castToDuplicate prev (Block.string i s r k) with
      | Except.ok dupb =>
        PyResult.ok ({ lib with _strings_by_key := mapSet lib._strings_by_key k dupb }, dupb)
      | Except.error e =>
        PyResult.error e
          ({ lib with _strings_by_key := mapSet lib._strings_by_key k (Block.string i s r k) },
            Block.string i s r k)
  | other => PyResult.ok (lib, other)

/-- One pass of the loop of `Library.add` (library.py lines 35-37): register
the block in the dicts, append the registered block to the sequence. -/
def addBlock (lib : Library) (b : Block) : PyResult Library :=
  match addToDicts lib b with
  | PyResult.ok (lib2, b2) => PyResult.ok { lib2 with _blocks := lib2._blocks ++ [b2] }
  | PyResult.error e (lib2, _) => PyResult.error e lib2

/-- Method `Library.add` on a list (library.py lines 23-37): the blocks are added
sequentially; a raise aborts the loop without undoing earlier items. -/
def addAll (lib : Library) (bs : List Block) : PyResult Library :=
  match bs with
  | [] => PyResult.ok lib
  | b :: rest =>
    match addBlock lib b with
    | PyResult.ok lib2 => addAll lib2 rest
    | PyResult.error e lib2 => PyResult.error e lib2

/-- Removal of the first occurrence, as `list.remove` does. -/
def eraseFirst : List Block → Block → List Block
  | [], _ => []
  | x :: xs, b => if x = b then xs else x :: eraseFirst xs b

/-- Python `list.index`: position of the first occurrence, if any. -/
def indexOfBlock : List Block → Block → Option Nat
  | [], _ => none
  | x :: xs, b => if x = b then some 0 else (indexOfBlock xs b).map (· + 1)

/-- Python `list.insert(i, x)`. -/
def insertAt (l : List Block) (i : Nat) (b : Block) : List Block :=
  l.take i ++ b :: l.drop i

/-- Method `Library.remove` for one block (library.py lines 39-52); `remove(blocks)`
loops this over the list. `list.remove` drops the first occurrence or raises
`ValueError` (`notFound`) with the library untouched; for an `Entry` or
`String` the subsequent `del map[key]` raises `KeyError` when the key is
absent, with the sequence already shortened. -/
def removeBlock (lib : Library) (b : Block) : PyResult Library :=
  if b ∈ lib._blocks then
    match b with
    | Block.entry _ _ _ k =>
      match mapGet lib._entries_by_key k with
      | some _ =>
        PyResult.ok
          { _blocks := eraseFirst lib._blocks b,
            _entries_by_key := mapDel lib._entries_by_key k,
            _strings_by_key := lib._strings_by_key }
      | none => PyResult.error PyError.keyError { lib with _blocks := eraseFirst lib._blocks b }
    | Block.string _ _ _ k =>
      match mapGet lib._strings_by_key k with
      | some _ =>
        PyResult.ok
          { _blocks := eraseFirst lib._blocks b,
            _entries_by_key := lib._entries_by_key,
            _strings_by_key := mapDel lib._strings_by_key k }
      | none => PyResult.error PyError.keyError { lib with _blocks := eraseFirst lib._blocks b }
    | _ => PyResult.ok { lib with _blocks := eraseFirst lib._blocks b }
  else
    PyResult.error PyError.notFound lib

/-- The shared body of `Library.replace` (library.py lines 65-72): locate
`old_block` (a miss raises `notFound` and, as in the code, the `ValueError`
from `list.index` is re-raised with the library untouched), remove it, insert
`new_block` at the same position, and register `new_block` in the dicts,
returning `block_after_add` alongside the new state. -/
def replaceCore (lib : Library) (old new : Block) : PyResult (Library × Block) :=
  match indexOfBlock lib._blocks old with
  | none => PyResult.error PyError.notFound (lib, old)
  | some idx =>
    match removeBlock lib old with
    | PyResult.error e lib1 => PyResult.error e (lib1, old)
    | PyResult.ok lib1 =>
      let lib2 : Library := { lib1 with _blocks := insertAt lib1._blocks idx new }
      match addToDicts lib2 new with
      | PyResult.error e (lib3, _) => PyResult.error e (lib3, new)
      | PyResult.ok (lib3, bAfter) => PyResult.ok (lib3, bAfter)

/-- Method `Library.replace` (library.py lines 54-84). After the shared body, the
code raises `ValueError("Duplicate key found.")` only when
`new_block is not block_after_add` AND `isinstance(new_block,
DuplicateKeyBlock)` AND `fail_on_duplicate_key`, first rolling back through a
recursive `replace(new_block, old_block, fail_on_duplicate_key=False)` —
which is exactly `replaceCore` again, since with the flag off the condition
cannot hold. -/
def replace (lib : Library) (old new : Block) (failOnDuplicateKey : Bool) : PyResult Library :=
  match replaceCore lib old new with
  | PyResult.error e (lib1, _) => PyResult.error e lib1
  | PyResult.ok (lib1, bAfter) =>
    if failOnDuplicateKey && !(new == bAfter) && new.isDuplicateKey then
      match replaceCore lib1 new old with
      | PyResult.error e (lib2, _) => PyResult.error e lib2
      | PyResult.ok (lib2, _) => PyResult.error PyError.duplicateKeyFound lib2
    else
      PyResult.ok lib1

/-- Modelled from the spec: a middleware's `transform` is a pure function
from a block and a read-only library context to a replacement block (spec
section 6, "each step's contract is `(Block, Library) -> Block`");
`bibtexparser/middleware.py` is not under `src/`. -/
abbrev Middleware := Block → Library → Block

/-- Method `Library.apply_middleware` (library.py lines 173-188):
`transformed_blocks` starts as a copy of `self._blocks`; each pass of the
loop rebinds it to `[m.transform(b, self) for b in self._blocks]` — reading
`self._blocks`, not the previous pass's output — and the final list is handed
to `Library.__init__`. -/
def applyMiddleware (lib : Library) (middlewares : List Middleware) : Library :=
  Library.init
    (middlewares.foldl (fun _ m => lib._blocks.map (fun b => m b lib)) lib._blocks)

/-! Concrete fixtures used by the counterexample theorems and witnesses. -/

/-- An entry with key `k1`. -/
def e1 : Block := Block.entry 1 1 "e1raw" "k1"

/-- An entry with key `k2`. -/
def e2 : Block := Block.entry 2 2 "e2raw" "k2"

/-- A second, distinct entry with the same key `k2`. -/
def e3 : Block := Block.entry 3 3 "e3raw" "k2"

/-- A third, distinct entry with the same key `k2`. -/
def e4 : Block := Block.entry 4 4 "e4raw" "k2"

/-- The `DuplicateKeyBlock` produced when `e3` collides with `e2`. -/
def dup23 : Block := Block.duplicateKey 3 "e3raw" "k2" e2 e3

/-- The library obtained by `add`ing `e1` then `e2` to an empty library. -/
def L0 : Library :=
  { _blocks := [e1, e2], _entries_by_key := [("k1", e1), ("k2", e2)], _strings_by_key := [] }

/-- The state `replace(L0, e1, e3, fail_on_duplicate_key=True)` leaves
behind: `e3` sits in the sequence while the entry map holds the
`DuplicateKeyBlock` wrapping `e2` and `e3`, which is in no sequence slot. -/
def L1 : Library :=
  { _blocks := [e3, e2], _entries_by_key := [("k2", dup23)], _strings_by_key := [] }

/-- The library obtained by `add`ing `e2` then `e3` to an empty library. -/
def L2 : Library :=
  { _blocks := [e2, dup23], _entries_by_key := [("k2", dup23)], _strings_by_key := [] }

/-- A library holding a single entry `e2`, with its map registration. -/
def Le2 : Library :=
  { _blocks := [e2], _entries_by_key := [("k2", e2)], _strings_by_key := [] }

/-- A preamble block used to exercise the middleware pipeline. -/
def p0 : Block := Block.preamble 0 0 "x"

/-- Apply a function to the `raw` attribute of a block, leaving the rest. -/
def mapRaw (f : String → String) : Block → Block
  | .entry i s r k => .entry i s (f r) k
  | .string i s r k => .string i s (f r) k
  | .preamble i s r => .preamble i s (f r)
  | .explicitComment i s r => .explicitComment i s (f r)
  | .implicitComment i s r => .implicitComment i s (f r)
  | .parsingFailed i s r => .parsingFailed i s (f r)
  | .duplicateKey s r k p d => .duplicateKey s (f r) k p d

/-- Middleware step A: append `"A"` to the raw text of every block. -/
def mwA : Middleware := fun b _ => mapRaw (fun r => r ++ "A") b

/-- Middleware step B: append `"B"` to the raw text of every block. -/
def mwB : Middleware := fun b _ => mapRaw (fun r => r ++ "B") b

/-- Middleware that renames every entry to the key `k1`. -/
def renameToK1 : Middleware := fun b _ =>
  match b with
  | Block.entry i s r _ => Block.entry i s r "k1"
  | other => other

/-- C1: the claim says `replace(old, new, fail_on_duplicate_key=True)` with
`new.key` colliding with a third live block raises the DuplicateKey error and
leaves the library exactly as before. On the code it does not: line 76 of
`library.py` tests `isinstance(new_block, DuplicateKeyBlock)` instead of
`block_after_add`, so the duplicate branch never fires; the call returns
normally with the library changed (here from `L0`, reachable by two adds from
empty, to `L1`). -/
theorem c1_replace_strict_collision_returns_ok :
    addAll emptyLibrary [e1, e2] = PyResult.ok L0 ∧
    replace L0 e1 e3 true = PyResult.ok L1 ∧
    L1 ≠ L0 := by
  refine ⟨by decide, by decide, by decide⟩

/-- C2: the claim says a two-step chain `[step_A, step_B]` yields, at each
position, `step_B` applied to `step_A`'s output. On the code the loop of
`apply_middleware` reads `self._blocks` on every pass, discarding `step_A`'s
output, so the block comes out as `step_B` of the ORIGINAL block (`"xB"`)
instead of the claimed composition (`"xAB"`). -/
theorem c2_second_step_reads_original_blocks :
    (applyMiddleware (Library.init [p0]) [mwA, mwB])._blocks = [Block.preamble 0 0 "xB"] ∧
    mwB (mwA p0 (Library.init [p0])) (Library.init [p0]) = Block.preamble 0 0 "xAB" ∧
    Block.preamble 0 0 "xB" ≠ Block.preamble 0 0 "xAB" := by
  refine ⟨by decide, by decide, by decide⟩

/-- C3: the claim says the library returned by `apply_middleware` has its key
maps rebuilt from the transformed blocks through the `add()` duplicate
detection, so renaming two entries to one key yields a `DuplicateKeyBlock` in
the map. On the code `Library.__init__` (lines 18-21) only copies the block
list and sets both maps to empty dicts, never calling `add`: after renaming
both entries of `L0` to key `k1` the result's entry map is empty — no
`DuplicateKeyBlock` anywhere — although the sequence holds two same-key
entries. -/
theorem c3_result_library_maps_not_rebuilt :
    (applyMiddleware L0 [renameToK1]).entries_dict = [] ∧
    (applyMiddleware L0 [renameToK1])._blocks =
      [Block.entry 1 1 "e1raw" "k1", Block.entry 2 2 "e2raw" "k1"] := by
  refine ⟨by decide, by decide⟩

/-- C4: the claim says `add` never signals an error, in particular when a
third same-key entry is added while the map slot holds a `DuplicateKeyBlock`.
On the code the third add reaches `_cast_to_duplicate` with that
`DuplicateKeyBlock` as `prev_block_with_same_key`, whose first `assert`
(same concrete variant) fails, raising `AssertionError` — and the `finally`
of `_add_to_dicts` still overwrites the map slot with the raw third entry
before the exception propagates. -/
theorem c4_third_same_key_add_fails_with_assertion :
    addAll emptyLibrary [e2, e3] = PyResult.ok L2 ∧
    addBlock L2 e4 =
      PyResult.error PyError.assertionError
        { _blocks := [e2, dup23], _entries_by_key := [("k2", e4)], _strings_by_key := [] } := by
  refine ⟨by decide, by decide⟩

/-- C5: the claim says that after every public operation each value of the
entry map occurs exactly once in the ordered sequence. On the code, the
(normally returning, see C1) call `replace L0 e1 e3 true` leaves the entry
map holding the `DuplicateKeyBlock` for `k2` while the sequence holds `e3`
instead — the mapped value occurs zero times in the sequence. -/
theorem c5_entry_map_value_missing_from_sequence_after_replace :
    replace L0 e1 e3 true = PyResult.ok L1 ∧
    mapGet L1._entries_by_key "k2" = some dup23 ∧
    dup23 ∉ L1.blocks := by
  refine ⟨by decide, by decide, by decide⟩

/-! Helper lemmas about the dict model and list removal. -/

/-- Looking a key up right after storing it yields the stored value. -/
theorem mapGet_mapSet_self (m : KeyMap) (k : String) (v : Block) :
    mapGet (mapSet m k v) k = some v := by
  induction m with
  | nil => simp [mapSet, mapGet]
  | cons p rest ih =>
    obtain ⟨k1, v1⟩ := p
    by_cases h : k1 = k
    · subst h
      simp [mapSet, mapGet]
    · simp [mapSet, mapGet, h, ih]

/-- Looking a key up right after deleting it yields nothing. -/
theorem mapGet_mapDel_self (m : KeyMap) (k : String) :
    mapGet (mapDel m k) k = none := by
  induction m with
  | nil => simp [mapDel, mapGet]
  | cons p rest ih =>
    obtain ⟨k1, v1⟩ := p
    by_cases h : k1 = k
    · simp [mapDel, h, ih]
    · simp [mapDel, mapGet, h, ih]

/-- A block different from the removed one survives `list.remove`. -/
theorem mem_eraseFirst_of_ne (l : List Block) (a b : Block) (hne : a ≠ b) (ha : a ∈ l) :
    a ∈ eraseFirst l b := by
  induction l with
  | nil => simp at ha
  | cons x xs ih =>
    by_cases hx : x = b
    · subst hx
      rcases List.mem_cons.mp ha with h1 | h2
      · exact absurd h1 hne
      · simpa [eraseFirst] using h2
    · rcases List.mem_cons.mp ha with h1 | h2
      · subst h1
        simp [eraseFirst, hx]
      · simp [eraseFirst, hx, ih h2]

/-- A successful `_cast_to_duplicate` returns exactly the sentinel built from
the duplicate's provenance, wrapping the previous and the duplicating block. -/
theorem castToDuplicate_ok_shape (p d r : Block)
    (h : castToDuplicate p d = Except.ok r) :
    r = Block.duplicateKey d.startLineOf d.rawOf d.keyD p d := by
  unfold castToDuplicate at h
  split at h
  · split at h
    · injection h with h1
      exact h1.symm
    · exact Except.noConfusion h
  · exact Except.noConfusion h

/-- The registered form of an added block: the block itself, or the
`DuplicateKeyBlock` that replaced it on a key collision (whose
`duplicate_block` is the added block). -/
def isRegistrationOf (r b : Block) : Prop :=
  r = b ∨ ∃ prev : Block, r = Block.duplicateKey b.startLineOf b.rawOf b.keyD prev b

/-- On normal return, `_add_to_dicts` leaves the block sequence untouched and
returns a registration of its argument. -/
theorem addToDicts_ok_spec (lib lib2 : Library) (b r : Block)
    (h : addToDicts lib b = PyResult.ok (lib2, r)) :
    isRegistrationOf r b ∧ lib2._blocks = lib._blocks := by
  cases b with
  | entry i s rt k =>
    simp only [addToDicts] at h
    split at h
    · injection h with h1
      injection h1 with hlib hreg
      subst hlib
      subst hreg
      exact ⟨Or.inl rfl, rfl⟩
    · split at h
      next dupb heq =>
        injection h with h1
        injection h1 with hlib hreg
        subst hlib
        subst hreg
        exact ⟨Or.inr ⟨_, castToDuplicate_ok_shape _ _ _ heq⟩, rfl⟩
      next e heq => exact PyResult.noConfusion h
  | string i s rt k =>
    simp only [addToDicts] at h
    split at h
    · injection h with h1
      injection h1 with hlib hreg
      subst hlib
      subst hreg
      exact ⟨Or.inl rfl, rfl⟩
    · split at h
      next dupb heq =>
        injection h with h1
        injection h1 with hlib hreg
        subst hlib
        subst hreg
        exact ⟨Or.inr ⟨_, castToDuplicate_ok_shape _ _ _ heq⟩, rfl⟩
      next e heq => exact PyResult.noConfusion h
  | preamble i s rt =>
    injection h with h1
    injection h1 with hlib hreg
    subst hlib
    subst hreg
    exact ⟨Or.inl rfl, rfl⟩
  | explicitComment i s rt =>
    injection h with h1
    injection h1 with hlib hreg
    subst hlib
    subst hreg
    exact ⟨Or.inl rfl, rfl⟩
  | implicitComment i s rt =>
    injection h with h1
    injection h1 with hlib hreg
    subst hlib
    subst hreg
    exact ⟨Or.inl rfl, rfl⟩
  | parsingFailed i s rt =>
    injection h with h1
    injection h1 with hlib hreg
    subst hlib
    subst hreg
    exact ⟨Or.inl rfl, rfl⟩
  | duplicateKey s rt k p d =>
    injection h with h1
    injection h1 with hlib hreg
    subst hlib
    subst hreg
    exact ⟨Or.inl rfl, rfl⟩

/-- On normal return, one pass of `add` appends exactly the registration of
the added block to the sequence. -/
theorem addBlock_ok_spec (lib lib2 : Library) (b : Block)
    (h : addBlock lib b = PyResult.ok lib2) :
    ∃ r, isRegistrationOf r b ∧ lib2._blocks = lib._blocks ++ [r] := by
  unfold addBlock at h
  split at h
  next libm rm heq =>
    injection h with h1
    obtain ⟨hreg, hblocks⟩ := addToDicts_ok_spec lib libm b rm heq
    refine ⟨rm, hreg, ?_⟩
    rw [← h1, hblocks]
  next e libm bm heq => exact PyResult.noConfusion h

/-- C6: adding a second entry bearing an already-registered key replaces the
entry map's value at that key with a `DuplicateKeyBlock` whose
`previous_block` is the first entry and whose `duplicate_block` is the
second; the ordered sequence gains that `DuplicateKeyBlock` at the appended
position, and the first entry stays in the sequence at its original position,
unchanged. -/
theorem c6_second_entry_same_key_becomes_duplicate
    (lib : Library) (i1 s1 i2 s2 pos : Nat) (r1 r2 k : String)
    (hat : lib._blocks[pos]? = some (Block.entry i1 s1 r1 k))
    (hmap : mapGet lib._entries_by_key k = some (Block.entry i1 s1 r1 k)) :
    addBlock lib (Block.entry i2 s2 r2 k) = PyResult.ok
      { _blocks := lib._blocks ++
          [Block.duplicateKey s2 r2 k (Block.entry i1 s1 r1 k) (Block.entry i2 s2 r2 k)],
        _entries_by_key := mapSet lib._entries_by_key k
          (Block.duplicateKey s2 r2 k (Block.entry i1 s1 r1 k) (Block.entry i2 s2 r2 k)),
        _strings_by_key := lib._strings_by_key } ∧
    mapGet (mapSet lib._entries_by_key k
        (Block.duplicateKey s2 r2 k (Block.entry i1 s1 r1 k) (Block.entry i2 s2 r2 k))) k =
      some (Block.duplicateKey s2 r2 k (Block.entry i1 s1 r1 k) (Block.entry i2 s2 r2 k)) ∧
    (lib._blocks ++
        [Block.duplicateKey s2 r2 k (Block.entry i1 s1 r1 k) (Block.entry i2 s2 r2 k)])[pos]? =
      some (Block.entry i1 s1 r1 k) := by
  have hcast : castToDuplicate (Block.entry i1 s1 r1 k) (Block.entry i2 s2 r2 k) =
      Except.ok (Block.duplicateKey s2 r2 k (Block.entry i1 s1 r1 k) (Block.entry i2 s2 r2 k)) := by
    simp [castToDuplicate, sameVariant, Block.tag, Block.keyD, Block.startLineOf, Block.rawOf]
  have hlt : pos < lib._blocks.length := (List.getElem?_eq_some.mp hat).1
  refine ⟨?_, mapGet_mapSet_self _ _ _, ?_⟩
  · simp [addBlock, addToDicts, hmap, hcast]
  · rw [List.getElem?_append_left hlt]
    exact hat

/-- C6 witness: the general theorem applied to a one-entry library. -/
theorem c6_second_entry_same_key_becomes_duplicate_witness :
    addBlock Le2 e3 = PyResult.ok
      { _blocks := Le2._blocks ++ [dup23],
        _entries_by_key := mapSet Le2._entries_by_key "k2" dup23,
        _strings_by_key := Le2._strings_by_key } ∧
    mapGet (mapSet Le2._entries_by_key "k2" dup23) "k2" = some dup23 ∧
    (Le2._blocks ++ [dup23])[0]? = some e2 :=
  c6_second_entry_same_key_becomes_duplicate Le2 2 2 3 3 0 "e2raw" "e3raw" "k2"
    (by decide) (by decide)

/-- C7: removing a block that is not present in the ordered sequence raises
the NotFound error (`ValueError` of `list.remove`), and the error leaves the
sequence and both key maps exactly as they were (the carried state is the
untouched library itself). -/
theorem c7_remove_absent_raises_not_found (lib : Library) (b : Block)
    (h : b ∉ lib._blocks) :
    removeBlock lib b = PyResult.error PyError.notFound lib := by
  unfold removeBlock
  rw [if_neg h]

/-- C7 witness: removing a foreign entry from the empty library. -/
theorem c7_remove_absent_raises_not_found_witness :
    removeBlock emptyLibrary e1 = PyResult.error PyError.notFound emptyLibrary :=
  c7_remove_absent_raises_not_found emptyLibrary e1 (by decide)

/-- C8: a sequence of successful adds appends one block per added block, in
the order of the adds, each appended block being the added block itself or
the `DuplicateKeyBlock` that registered it on a key collision; the pre-call
contents of the `blocks` view stay in front, so starting from the empty
library the view lists exactly the registrations in insertion order. -/
theorem c8_blocks_in_insertion_order (bs : List Block) (lib lib2 : Library)
    (h : addAll lib bs = PyResult.ok lib2) :
    ∃ rs : List Block, lib2.blocks = lib.blocks ++ rs ∧ rs.length = bs.length ∧
      ∀ (i : Nat) (hb : i < bs.length) (hr : i < rs.length),
        isRegistrationOf (rs.get ⟨i, hr⟩) (bs.get ⟨i, hb⟩) := by
  induction bs generalizing lib with
  | nil =>
    refine ⟨[], ?_, rfl, ?_⟩
    · unfold addAll at h
      injection h with h1
      rw [h1]
      simp [Library.blocks]
    · intro i hb hr
      exact absurd hb (by simp)
  | cons b rest ih =>
    unfold addAll at h
    split at h
    next libm heq =>
      obtain ⟨r, hreg, hblocks⟩ := addBlock_ok_spec lib libm b heq
      obtain ⟨rs, hpre, hlen, hidx⟩ := ih libm h
      refine ⟨r :: rs, ?_, by simp [hlen], ?_⟩
      · rw [hpre]
        unfold Library.blocks
        rw [hblocks]
        simp
      · intro i hb hr
        match i with
        | 0 => exact hreg
        | Nat.succ j =>
          exact hidx j (Nat.lt_of_succ_lt_succ hb) (Nat.lt_of_succ_lt_succ hr)
    next e libm heq => exact PyResult.noConfusion h

/-- C8 witness: the general theorem applied to the two colliding adds that
build `L2` from the empty library. -/
theorem c8_blocks_in_insertion_order_witness :
    ∃ rs : List Block, L2.blocks = emptyLibrary.blocks ++ rs ∧
      rs.length = ([e2, e3] : List Block).length ∧
      ∀ (i : Nat) (hb : i < ([e2, e3] : List Block).length) (hr : i < rs.length),
        isRegistrationOf (rs.get ⟨i, hr⟩) (([e2, e3] : List Block).get ⟨i, hb⟩) :=
  c8_blocks_in_insertion_order [e2, e3] emptyLibrary L2 (by decide)

/-- C9: removing a block that is neither an `Entry` nor a `String` (a
preamble, a comment, a `ParsingFailedBlock` or a `DuplicateKeyBlock`) only
deletes its first occurrence from the ordered sequence; both key maps are
returned untouched, whatever they contain — in particular even when some map
value is that very block. -/
theorem c9_remove_unkeyed_block_leaves_maps
    (lib : Library) (b : Block)
    (hmem : b ∈ lib._blocks) (he : b.isEntry = false) (hs : b.isString = false) :
    removeBlock lib b = PyResult.ok
      { _blocks := eraseFirst lib._blocks b,
        _entries_by_key := lib._entries_by_key,
        _strings_by_key := lib._strings_by_key } := by
  cases b with
  | entry i s rt k => simp [Block.isEntry] at he
  | string i s rt k => simp [Block.isString] at hs
  | preamble i s rt => simp [removeBlock, hmem]
  | explicitComment i s rt => simp [removeBlock, hmem]
  | implicitComment i s rt => simp [removeBlock, hmem]
  | parsingFailed i s rt => simp [removeBlock, hmem]
  | duplicateKey s rt k p d => simp [removeBlock, hmem]

/-- C9 witness: removing the `DuplicateKeyBlock` of `L2` from the sequence
leaves the entry map still holding that very block under `k2`. -/
theorem c9_remove_unkeyed_block_leaves_maps_witness :
    removeBlock L2 dup23 = PyResult.ok
      { _blocks := eraseFirst L2._blocks dup23,
        _entries_by_key := L2._entries_by_key,
        _strings_by_key := L2._strings_by_key } :=
  c9_remove_unkeyed_block_leaves_maps L2 dup23 (by decide) (by decide) (by decide)

/-- C10: removing an `Entry` (first part) or a `String` (second part) that is
present in the ordered sequence deletes the corresponding key map's current
mapping for its key whatever block that mapping holds — also when it holds a
different block than the removed one — while that other block, if it sits in
the sequence, stays there. -/
theorem c10_remove_keyed_deletes_current_mapping :
    (∀ (lib : Library) (i s : Nat) (rt k : String) (c : Block),
      Block.entry i s rt k ∈ lib._blocks →
      mapGet lib._entries_by_key k = some c →
      removeBlock lib (Block.entry i s rt k) = PyResult.ok
        { _blocks := eraseFirst lib._blocks (Block.entry i s rt k),
          _entries_by_key := mapDel lib._entries_by_key k,
          _strings_by_key := lib._strings_by_key } ∧
      mapGet (mapDel lib._entries_by_key k) k = none ∧
      (c ≠ Block.entry i s rt k → c ∈ lib._blocks →
        c ∈ eraseFirst lib._blocks (Block.entry i s rt k))) ∧
    (∀ (lib : Library) (i s : Nat) (rt k : String) (c : Block),
      Block.string i s rt k ∈ lib._blocks →
      mapGet lib._strings_by_key k = some c →
      removeBlock lib (Block.string i s rt k) = PyResult.ok
        { _blocks := eraseFirst lib._blocks (Block.string i s rt k),
          _entries_by_key := lib._entries_by_key,
          _strings_by_key := mapDel lib._strings_by_key k } ∧
      mapGet (mapDel lib._strings_by_key k) k = none ∧
      (c ≠ Block.string i s rt k → c ∈ lib._blocks →
        c ∈ eraseFirst lib._blocks (Block.string i s rt k))) := by
  constructor
  · intro lib i s rt k c hmem hmap
    refine ⟨?_, mapGet_mapDel_self _ _, ?_⟩
    · simp [removeBlock, hmem, hmap]
    · intro hne hcmem
      exact mem_eraseFirst_of_ne _ _ _ hne hcmem
  · intro lib i s rt k c hmem hmap
    refine ⟨?_, mapGet_mapDel_self _ _, ?_⟩
    · simp [removeBlock, hmem, hmap]
    · intro hne hcmem
      exact mem_eraseFirst_of_ne _ _ _ hne hcmem

/-- C10 witness: in the state `L1` (reached by the replace of C1), the entry
map's value for `k2` is the `DuplicateKeyBlock`, not the entry `e3` being
removed; removing `e3` still deletes that mapping. -/
theorem c10_remove_keyed_deletes_current_mapping_witness :
    removeBlock L1 e3 = PyResult.ok
      { _blocks := eraseFirst L1._blocks e3,
        _entries_by_key := mapDel L1._entries_by_key "k2",
        _strings_by_key := L1._strings_by_key } ∧
    mapGet (mapDel L1._entries_by_key "k2") "k2" = none ∧
    (dup23 ≠ e3 → dup23 ∈ L1._blocks → dup23 ∈ eraseFirst L1._blocks e3) :=
  c10_remove_keyed_deletes_current_mapping.1 L1 3 3 "e3raw" "k2" dup23
    (by decide) (by decide)

end Bibtex
